import Mathlib

/-!
Shallow embedding of the mta_backend wallet service (src/app.py, src/models.py).

The database session is modelled as an explicit state `DB`; each Flask handler
relevant to the claims becomes a pure function from a state and request data to
a response and a new state.  Monetary columns are `Numeric(19, 4)` decimals,
whose addition and subtraction are exact, so balances and amounts are rationals.
Timestamps are abstract `Nat` instants; each handler takes the current time `t`
(the value `datetime.utcnow()` returns during the request) as a parameter.
Authentication (the token_required decorator) is modelled by passing the
resolved caller id explicitly where the handler body reads `g.current_user`.
-/

namespace MTA

/-- A row of the `users` table (src/models.py, class User).  Only the columns
read by the embedded handlers are carried: `id` and `email` (the credential,
admin and timestamp columns are never read by create_wallet, add_funds or
send_money). -/
structure User where
  id : Nat
  email : String
deriving DecidableEq

/-- A row of the `wallets` table (src/models.py, class Wallet): `balance` is
`Numeric(19, 4)` with default 0, `currency` defaults to "USD", `is_active`
defaults to true, `created_at` defaults to `datetime.utcnow`, `updated_at`
defaults to `datetime.utcnow` and declares `onupdate=datetime.utcnow`
(src/models.py line 56), so every committed update of the row bumps it, and
`last_transaction_at` is a nullable DateTime. -/
structure Wallet where
  id : Nat
  user_id : Nat
  balance : ℚ
  currency : String
  is_active : Bool
  created_at : Nat
  updated_at : Nat
  last_transaction_at : Option Nat
deriving DecidableEq

/-- A row of the `transactions` table (src/models.py, class Transaction).
No handler in src/app.py ever inserts such a row; the shape matters for the
claims only through the content of `DB.transactions`. -/
structure Transaction where
  id : Nat
  sender_wallet_id : Option Nat
  receiver_wallet_id : Option Nat
  amount : ℚ
  currency : String
  transaction_type : String
  status : String
  reference_code : String
  fee : ℚ
  completed_at : Option Nat
deriving DecidableEq

/-- A row of the `logs` table (src/models.py, class Log).  The JSON snapshot
columns are modelled as opaque optional strings; `ip_address`, `user_agent`
and `created_at` are request metadata never read back by the handlers. -/
structure Log where
  user_id : Nat
  action : String
  entity_type : String
  entity_id : Option Nat
  old_value : Option String
  new_value : Option String
deriving DecidableEq

/-- The database state: the rows of the four tables the claims touch, plus the
id the next inserted wallet row will receive (auto-increment primary key). -/
structure DB where
  users : List User
  wallets : List Wallet
  transactions : List Transaction
  logs : List Log
  nextWalletId : Nat
deriving DecidableEq

/-- The JSON `amount` field as `Decimal(...)` sees it.  `num q` is a value the
conversion accepts (JSON numbers, numeric strings).  `nonNumeric` is an input
on which the conversion raises: `Decimal("abc")` raises
`decimal.InvalidOperation` and `Decimal(None)` raises `TypeError`, and neither
exception is a `ValueError`. -/
inductive JsonAmount where
  | num (q : ℚ)
  | nonNumeric
deriving DecidableEq

/-- The response of a handler, abstracting the HTTP status and JSON body:
`ok` is a 200, `created` a 201, `badRequest`/`notFound` carry the error
message of a 400/404, `handledError` is a 500 produced by an `except` branch
after `db.session.rollback()`, and `unhandled` is an exception that escaped
the handler body (the framework turns it into a generic 500). -/
inductive Resp where
  | ok
  | created
  | badRequest (msg : String)
  | notFound (msg : String)
  | handledError (msg : String)
  | unhandled
deriving DecidableEq

/-- `User.query.filter_by(email=email).first()` — first matching row in table
order. -/
def findUserByEmail (st : DB) (email : String) : Option User :=
  (st.users.filter (fun u => u.email = email)).head?

/-- The `user.wallets` relationship: every wallet row whose `user_id` is the
given id, in table order (the relationship declares no order_by). -/
def walletsOf (st : DB) (uid : Nat) : List Wallet :=
  st.wallets.filter (fun w => w.user_id = uid)

/-- `Wallet.query.filter_by(user_id=uid, is_active=True).first()`. -/
def findActiveWallet (st : DB) (uid : Nat) : Option Wallet :=
  (st.wallets.filter (fun w => w.user_id = uid && w.is_active)).head?

/-- Apply `f` to the wallet row with the given primary key.  This models an
in-place ORM object mutation followed by commit: every row with that id is
rewritten (ids are unique in any real database state). -/
def mapWalletById (st : DB) (wid : Nat) (f : Wallet → Wallet) : DB :=
  { st with wallets := st.wallets.map (fun w => if w.id = wid then f w else w) }

/-- `wallet.balance = f(wallet.balance)` on the row with id `wid`, committed
at time `t`.  Because the column `updated_at` declares
`onupdate=datetime.utcnow` (src/models.py line 56), the commit of the update
also bumps `updated_at` on the row. -/
def updateBalance (st : DB) (wid : Nat) (f : ℚ → ℚ) (t : Nat) : DB :=
  mapWalletById st wid (fun w => { w with balance := f w.balance, updated_at := t })

/-- `wallet.last_transaction_at = datetime.utcnow()` on the row with id `wid`,
committed at time `t`; the commit also bumps the `onupdate`-maintained
`updated_at`. -/
def stampWallet (st : DB) (wid : Nat) (t : Nat) : DB :=
  mapWalletById st wid
    (fun w => { w with last_transaction_at := some t, updated_at := t })

/-- The balance of the wallet row with primary key `wid`, if such a row
exists. -/
def balanceOf (st : DB) (wid : Nat) : Option ℚ :=
  ((st.wallets.filter (fun w => w.id = wid)).head?).map Wallet.balance

/-- The storage-layer `unique_user_wallet` constraint of
`Wallet.__table_args__` (src/models.py lines 67-69): a wallet insert commits
only when no existing row has the same (user_id, currency) pair; otherwise the
commit raises IntegrityError. -/
def walletInsertOk (st : DB) (w : Wallet) : Bool :=
  !(st.wallets.any (fun w2 => w2.user_id = w.user_id && w2.currency = w.currency))

/-- Append a wallet row and advance the auto-increment counter. -/
def insertWallet (st : DB) (w : Wallet) : DB :=
  { st with wallets := st.wallets ++ [w], nextWalletId := st.nextWalletId + 1 }

/-- The fresh wallet add_funds builds when the user has no active wallet
(src/app.py line 263): `Wallet(user_id=user_id, balance=Decimal(0.0000),
currency="USD", is_active=True)`, with the model timestamp defaults set to
the insert time `t`. -/
def freshWallet (st : DB) (reqUserId : Nat) (t : Nat) : Wallet :=
  { id := st.nextWalletId, user_id := reqUserId, balance := 0,
    currency := "USD", is_active := true, created_at := t, updated_at := t,
    last_transaction_at := none }

/-- src/app.py create_log (lines 76-88): builds a Log row from the resolved
caller and commits it.  Request metadata (remote_addr, User-Agent) is dropped
from the model since no handler reads it back. -/
def create_log (st : DB) (callerId : Nat) (action entityType : String)
    (entityId : Option Nat) (oldValue newValue : Option String) : DB :=
  { st with logs := st.logs ++ [⟨callerId, action, entityType, entityId, oldValue, newValue⟩] }

/-- src/app.py create_wallet (POST /api/wallets, lines 206-222).  The currency
defaults to "USD" when absent from the body.  A wallet for the same
(caller, currency) pair is rejected with a 400 before anything is written;
otherwise a wallet with the model defaults (balance 0, is_active true, both
timestamp columns set to the insert time `t`) is committed and a
CREATE_WALLET log row is appended.  The pre-check tests the exact pair of the
unique_user_wallet constraint, so in this sequential model the insert cannot
violate it. -/
def create_wallet (st : DB) (callerId : Nat) (currencyOpt : Option String)
    (t : Nat) : Resp × DB :=
  if st.wallets.any (fun w => w.user_id = callerId && w.currency = currencyOpt.getD "USD") then
    (.badRequest ("Wallet for " ++ currencyOpt.getD "USD" ++ " already exists"), st)
  else
    (.created,
      create_log
        (insertWallet st
          { id := st.nextWalletId, user_id := callerId, balance := 0,
            currency := currencyOpt.getD "USD", is_active := true,
            created_at := t, updated_at := t, last_transaction_at := none })
        callerId "CREATE_WALLET" "WALLET" (some st.nextWalletId) none none)

/-- src/app.py add_funds (POST /api/add-funds, lines 240-279).  `reqUserId` is
`data.get("user_id")` from the request body; the handler body never reads the
authenticated caller, so no caller parameter appears here.  On a non-numeric
amount `Decimal(amount)` raises InvalidOperation or TypeError, which the
handler catches only as `except ValueError`, so the exception escapes.  When
the user has no active wallet a fresh USD wallet with balance 0 is committed
first; that commit is subject to the unique_user_wallet constraint and an
IntegrityError lands in the `except Exception` branch (rollback, 500).
Otherwise the wallet found (or created) is credited, stamped, and its
updated_at bumped by the commit.  Foreign-key enforcement of `user_id` is not
modelled: callers are assumed to name existing users. -/
def add_funds (st : DB) (reqUserId : Nat) (amountIn : JsonAmount) (t : Nat) :
    Resp × DB :=
  match amountIn with
  | .nonNumeric => (.unhandled, st)
  | .num amount =>
    if amount ≤ 0 then (.badRequest "Amount must be greater than 0", st)
    else
      match findActiveWallet st reqUserId with
      | some w =>
          (.ok, stampWallet (updateBalance st w.id (fun b => b + amount) t) w.id t)
      | none =>
          if walletInsertOk st (freshWallet st reqUserId t) then
            (.ok, stampWallet
              (updateBalance (insertWallet st (freshWallet st reqUserId t))
                st.nextWalletId (fun b => b + amount) t)
              st.nextWalletId t)
          else
            (.handledError "Error processing request", st)

/-- src/app.py send_money (POST /api/send-money, lines 282-321).
`Decimal(data.get("amount", 0))` runs before the try block, so a non-numeric
amount escapes the handler.  The sender and recipient wallets are
`sender.wallets[0]` and `recipient.wallets[0]` — the first wallet of each
relationship, with no currency or is_active check; a missing wallet raises
IndexError, caught by `except Exception` (rollback, 500).  On success the two
balances change and the session commits at time `t` (bumping the two mutated
rows' onupdate-maintained updated_at): no Transaction row is inserted, no Log
row is written, and last_transaction_at is not stamped. -/
def send_money (st : DB) (callerId : Nat) (beneficiaryEmail : String)
    (amountIn : JsonAmount) (t : Nat) : Resp × DB :=
  match amountIn with
  | .nonNumeric => (.unhandled, st)
  | .num amount =>
    if amount ≤ 0 then (.badRequest "Amount must be greater than 0", st)
    else
      match findUserByEmail st beneficiaryEmail with
      | none => (.notFound "Recipient not found", st)
      | some recipient =>
        match (walletsOf st callerId).head? with
        | none => (.handledError "Error processing transaction", st)
        | some senderWallet =>
          match (walletsOf st recipient.id).head? with
          | none => (.handledError "Error processing transaction", st)
          | some recipientWallet =>
            if senderWallet.balance < amount then
              (.badRequest "Insufficient balance", st)
            else
              (.ok, updateBalance (updateBalance st senderWallet.id (fun b => b - amount) t)
                      recipientWallet.id (fun b => b + amount) t)

/-- The operations a caller can issue against the wallet state (the three
handlers that mutate wallets), each carrying its request time. -/
inductive ApiOp where
  | createWallet (callerId : Nat) (currency : Option String) (t : Nat)
  | addFunds (reqUserId : Nat) (amount : JsonAmount) (t : Nat)
  | sendMoney (callerId : Nat) (email : String) (amount : JsonAmount) (t : Nat)
deriving DecidableEq

/-- The state after one operation. -/
def applyOp (st : DB) : ApiOp → DB
  | .createWallet c cur t => (create_wallet st c cur t).2
  | .addFunds r a t => (add_funds st r a t).2
  | .sendMoney c e a t => (send_money st c e a t).2

/-- The state after a sequence of operations. -/
def applyOps (st : DB) (ops : List ApiOp) : DB :=
  ops.foldl applyOp st

/-- Every wallet balance is non-negative. -/
def NonNeg (st : DB) : Prop :=
  ∀ w ∈ st.wallets, 0 ≤ w.balance

/-- Wallet primary keys are pairwise distinct. -/
def UniqueIds (st : DB) : Prop :=
  (st.wallets.map Wallet.id).Nodup

/-- Every wallet id is below the auto-increment counter. -/
def IdsBelowNext (st : DB) : Prop :=
  ∀ w ∈ st.wallets, w.id < st.nextWalletId

/-- The state invariant: non-negative balances plus well-formed primary
keys. -/
def Inv (st : DB) : Prop :=
  NonNeg st ∧ UniqueIds st ∧ IdsBelowNext st

instance (st : DB) : Decidable (NonNeg st) :=
  inferInstanceAs (Decidable (∀ w ∈ st.wallets, 0 ≤ w.balance))

instance (st : DB) : Decidable (UniqueIds st) :=
  inferInstanceAs (Decidable ((st.wallets.map Wallet.id).Nodup))

instance (st : DB) : Decidable (IdsBelowNext st) :=
  inferInstanceAs (Decidable (∀ w ∈ st.wallets, w.id < st.nextWalletId))

instance (st : DB) : Decidable (Inv st) :=
  inferInstanceAs (Decidable (NonNeg st ∧ UniqueIds st ∧ IdsBelowNext st))

/-! ## Helper lemmas about the state operations -/

theorem mem_of_head?_eq {α : Type} {l : List α} {a : α} (h : l.head? = some a) :
    a ∈ l := by
  cases l with
  | nil => cases h
  | cons x t =>
    simp only [List.head?_cons, Option.some.injEq] at h
    exact h ▸ List.mem_cons_self x t

theorem mem_wallets_of_walletsOf_head {st : DB} {uid : Nat} {sw : Wallet}
    (h : (walletsOf st uid).head? = some sw) : sw ∈ st.wallets :=
  (List.mem_filter.mp (mem_of_head?_eq h)).1

theorem mem_wallets_of_findActiveWallet {st : DB} {uid : Nat} {w : Wallet}
    (h : findActiveWallet st uid = some w) : w ∈ st.wallets :=
  (List.mem_filter.mp (mem_of_head?_eq h)).1

theorem id_inj {st : DB} (h : UniqueIds st) {w1 w2 : Wallet}
    (h1 : w1 ∈ st.wallets) (h2 : w2 ∈ st.wallets) (he : w1.id = w2.id) :
    w1 = w2 :=
  List.inj_on_of_nodup_map h h1 h2 he

theorem mapWalletById_map_eq {β : Type} (st : DB) (wid : Nat) (f : Wallet → Wallet)
    (g : Wallet → β) (hfg : ∀ w, g (f w) = g w) :
    (mapWalletById st wid f).wallets.map g = st.wallets.map g := by
  simp only [mapWalletById, List.map_map]
  refine List.map_congr_left (fun w _ => ?_)
  by_cases h : w.id = wid <;> simp [h, hfg]

theorem uniqueIds_mapWalletById {st : DB} (wid : Nat) (f : Wallet → Wallet)
    (hf : ∀ w, (f w).id = w.id) (h : UniqueIds st) :
    UniqueIds (mapWalletById st wid f) := by
  unfold UniqueIds at *
  rw [mapWalletById_map_eq st wid f Wallet.id hf]
  exact h

theorem idsBelowNext_mapWalletById {st : DB} (wid : Nat) (f : Wallet → Wallet)
    (hf : ∀ w, (f w).id = w.id) (h : IdsBelowNext st) :
    IdsBelowNext (mapWalletById st wid f) := by
  intro w hw
  simp only [mapWalletById, List.mem_map] at hw
  obtain ⟨w0, hw0, rfl⟩ := hw
  have hlt := h w0 hw0
  by_cases hb : w0.id = wid <;> simp [mapWalletById, hb, hf] <;> omega

theorem nonNeg_updateBalance_add {st : DB} (wid : Nat) (amount : ℚ) (t : Nat)
    (h : NonNeg st) (ha : 0 ≤ amount) :
    NonNeg (updateBalance st wid (fun b => b + amount) t) := by
  intro w hw
  simp only [updateBalance, mapWalletById, List.mem_map] at hw
  obtain ⟨w0, hw0, rfl⟩ := hw
  by_cases hb : w0.id = wid
  · simpa [hb] using add_nonneg (h w0 hw0) ha
  · simpa [hb] using h w0 hw0

theorem nonNeg_stampWallet {st : DB} (wid t : Nat) (h : NonNeg st) :
    NonNeg (stampWallet st wid t) := by
  intro w hw
  simp only [stampWallet, mapWalletById, List.mem_map] at hw
  obtain ⟨w0, hw0, rfl⟩ := hw
  by_cases hb : w0.id = wid
  · simpa [hb] using h w0 hw0
  · simpa [hb] using h w0 hw0

theorem nonNeg_updateBalance_sub {st : DB} {sw : Wallet} (amount : ℚ) (t : Nat)
    (h : NonNeg st) (hnd : UniqueIds st) (hsw : sw ∈ st.wallets)
    (hge : amount ≤ sw.balance) :
    NonNeg (updateBalance st sw.id (fun b => b - amount) t) := by
  intro w hw
  simp only [updateBalance, mapWalletById, List.mem_map] at hw
  obtain ⟨w0, hw0, rfl⟩ := hw
  by_cases hb : w0.id = sw.id
  · have hws : w0 = sw := id_inj hnd hw0 hsw hb
    subst hws
    simpa [hb] using sub_nonneg.mpr hge
  · simpa [hb] using h w0 hw0

theorem inv_updateBalance_add {st : DB} (wid : Nat) (amount : ℚ) (t : Nat)
    (h : Inv st) (ha : 0 ≤ amount) :
    Inv (updateBalance st wid (fun b => b + amount) t) :=
  ⟨nonNeg_updateBalance_add wid amount t h.1 ha,
   uniqueIds_mapWalletById wid _ (fun _ => rfl) h.2.1,
   idsBelowNext_mapWalletById wid _ (fun _ => rfl) h.2.2⟩

theorem inv_stampWallet {st : DB} (wid t : Nat) (h : Inv st) :
    Inv (stampWallet st wid t) :=
  ⟨nonNeg_stampWallet wid t h.1,
   uniqueIds_mapWalletById wid _ (fun _ => rfl) h.2.1,
   idsBelowNext_mapWalletById wid _ (fun _ => rfl) h.2.2⟩

theorem inv_insertWallet {st : DB} {w : Wallet} (h : Inv st)
    (hid : w.id = st.nextWalletId) (hb : 0 ≤ w.balance) :
    Inv (insertWallet st w) := by
  obtain ⟨hn, hu, hlt⟩ := h
  refine ⟨?_, ?_, ?_⟩
  · intro x hx
    simp only [insertWallet, List.mem_append, List.mem_singleton] at hx
    rcases hx with hx | rfl
    · exact hn x hx
    · exact hb
  · unfold UniqueIds at *
    simp only [insertWallet, List.map_append, List.map_cons, List.map_nil]
    rw [List.nodup_append]
    refine ⟨hu, List.nodup_singleton _, ?_⟩
    intro a ha hb2
    simp only [List.mem_singleton] at hb2
    subst hb2
    obtain ⟨x, hx, hxx⟩ := List.mem_map.mp ha
    have := hlt x hx
    omega
  · intro x hx
    simp only [insertWallet, List.mem_append, List.mem_singleton] at hx
    simp only [insertWallet]
    rcases hx with hx | rfl
    · have := hlt x hx; omega
    · omega

theorem inv_create_wallet (st : DB) (c : Nat) (cur : Option String) (t : Nat)
    (h : Inv st) : Inv (create_wallet st c cur t).2 := by
  by_cases hdup :
      st.wallets.any (fun w => w.user_id = c && w.currency = cur.getD "USD") = true
  · simpa [create_wallet, hdup] using h
  · have h2 := inv_insertWallet (w :=
      { id := st.nextWalletId, user_id := c, balance := 0,
        currency := cur.getD "USD", is_active := true,
        created_at := t, updated_at := t, last_transaction_at := none })
      h rfl le_rfl
    simpa [create_wallet, hdup, create_log] using h2

theorem inv_add_funds (st : DB) (r : Nat) (a : JsonAmount) (t : Nat) (h : Inv st) :
    Inv (add_funds st r a t).2 := by
  cases a with
  | nonNumeric => exact h
  | num amount =>
    by_cases hpos : amount ≤ 0
    · simpa [add_funds, hpos] using h
    · have ha : (0 : ℚ) ≤ amount := le_of_lt (not_le.mp hpos)
      cases hfw : findActiveWallet st r with
      | some w =>
          have h2 := inv_stampWallet w.id t (inv_updateBalance_add w.id amount t h ha)
          simpa [add_funds, hpos, hfw] using h2
      | none =>
          by_cases hok : walletInsertOk st (freshWallet st r t) = true
          · have h2 := inv_insertWallet (w := freshWallet st r t) h rfl le_rfl
            have h3 := inv_stampWallet st.nextWalletId t
              (inv_updateBalance_add st.nextWalletId amount t h2 ha)
            simpa [add_funds, hpos, hfw, hok] using h3
          · simpa [add_funds, hpos, hfw, hok] using h

theorem inv_send_money (st : DB) (c : Nat) (e : String) (a : JsonAmount) (t : Nat)
    (h : Inv st) : Inv (send_money st c e a t).2 := by
  cases a with
  | nonNumeric => exact h
  | num amount =>
    by_cases hpos : amount ≤ 0
    · simpa [send_money, hpos] using h
    · cases heq : findUserByEmail st e with
      | none => simpa [send_money, hpos, heq] using h
      | some recipient =>
        cases hsw : (walletsOf st c).head? with
        | none => simpa [send_money, hpos, heq, hsw] using h
        | some sw =>
          cases hrw : (walletsOf st recipient.id).head? with
          | none => simpa [send_money, hpos, heq, hsw, hrw] using h
          | some rw =>
            by_cases hlt : sw.balance < amount
            · simpa [send_money, hpos, heq, hsw, hrw, hlt] using h
            · have hswm : sw ∈ st.wallets := mem_wallets_of_walletsOf_head hsw
              have h1 : Inv (updateBalance st sw.id (fun b => b - amount) t) :=
                ⟨nonNeg_updateBalance_sub amount t h.1 h.2.1 hswm (not_lt.mp hlt),
                 uniqueIds_mapWalletById _ _ (fun _ => rfl) h.2.1,
                 idsBelowNext_mapWalletById _ _ (fun _ => rfl) h.2.2⟩
              have h2 := inv_updateBalance_add rw.id amount t h1 (le_of_lt (not_le.mp hpos))
              simpa [send_money, hpos, heq, hsw, hrw, hlt] using h2

theorem inv_applyOp (st : DB) (op : ApiOp) (h : Inv st) : Inv (applyOp st op) := by
  cases op with
  | createWallet c cur t => exact inv_create_wallet st c cur t h
  | addFunds r a t => exact inv_add_funds st r a t h
  | sendMoney c e a t => exact inv_send_money st c e a t h

theorem inv_applyOps (st : DB) (ops : List ApiOp) (h : Inv st) :
    Inv (applyOps st ops) := by
  induction ops generalizing st with
  | nil => exact h
  | cons op rest ih => exact ih _ (inv_applyOp st op h)

theorem unique_filter {l : List Wallet} (hnd : (l.map Wallet.id).Nodup)
    {sw : Wallet} (hsw : sw ∈ l) :
    l.filter (fun w => w.id = sw.id) = [sw] := by
  induction l with
  | nil => cases hsw
  | cons h t ih =>
    simp only [List.map_cons, List.nodup_cons] at hnd
    rcases List.mem_cons.mp hsw with rfl | hmem
    · have ht : t.filter (fun w => w.id = sw.id) = [] := by
        rw [List.eq_nil_iff_forall_not_mem]
        intro w hw
        rw [List.mem_filter] at hw
        exact hnd.1 (of_decide_eq_true hw.2 ▸ List.mem_map_of_mem Wallet.id hw.1)
      simp [List.filter_cons, ht]
    · have hne : ¬(h.id = sw.id) := by
        intro hh
        exact hnd.1 (hh ▸ List.mem_map_of_mem Wallet.id hmem)
      simp [List.filter_cons, hne, ih hnd.2 hmem]

theorem balanceOf_eq_of_mem {st : DB} (hnd : UniqueIds st) {sw : Wallet}
    (hsw : sw ∈ st.wallets) : balanceOf st sw.id = some sw.balance := by
  unfold balanceOf
  rw [unique_filter hnd hsw]
  rfl

theorem mem_mapWalletById_self {st : DB} {w : Wallet} (hw : w ∈ st.wallets)
    (wid : Nat) (f : Wallet → Wallet) (hid : w.id = wid) :
    f w ∈ (mapWalletById st wid f).wallets := by
  simp only [mapWalletById, List.mem_map]
  exact ⟨w, hw, by simp [hid]⟩

theorem mem_mapWalletById_other {st : DB} {w : Wallet} (hw : w ∈ st.wallets)
    (wid : Nat) (f : Wallet → Wallet) (hid : w.id ≠ wid) :
    w ∈ (mapWalletById st wid f).wallets := by
  simp only [mapWalletById, List.mem_map]
  exact ⟨w, hw, by simp [hid]⟩

theorem balances_after_transfer {st : DB} (hnd : UniqueIds st) {sw rw : Wallet}
    (hsw : sw ∈ st.wallets) (hrw : rw ∈ st.wallets) (hne : sw.id ≠ rw.id)
    (amount : ℚ) (t : Nat) :
    balanceOf (updateBalance (updateBalance st sw.id (fun b => b - amount) t)
        rw.id (fun b => b + amount) t) sw.id = some (sw.balance - amount) ∧
    balanceOf (updateBalance (updateBalance st sw.id (fun b => b - amount) t)
        rw.id (fun b => b + amount) t) rw.id = some (rw.balance + amount) := by
  have hnd1 : UniqueIds (updateBalance st sw.id (fun b => b - amount) t) :=
    uniqueIds_mapWalletById _ _ (fun _ => rfl) hnd
  have hnd2 : UniqueIds (updateBalance (updateBalance st sw.id (fun b => b - amount) t)
      rw.id (fun b => b + amount) t) :=
    uniqueIds_mapWalletById _ _ (fun _ => rfl) hnd1
  have hsw1 : ({ sw with balance := sw.balance - amount, updated_at := t } : Wallet) ∈
      (updateBalance st sw.id (fun b => b - amount) t).wallets :=
    mem_mapWalletById_self hsw sw.id _ rfl
  have hsw2 : ({ sw with balance := sw.balance - amount, updated_at := t } : Wallet) ∈
      (updateBalance (updateBalance st sw.id (fun b => b - amount) t)
        rw.id (fun b => b + amount) t).wallets :=
    mem_mapWalletById_other hsw1 rw.id _ hne
  have hrw1 : rw ∈ (updateBalance st sw.id (fun b => b - amount) t).wallets :=
    mem_mapWalletById_other hrw sw.id _ (fun hh => hne hh.symm)
  have hrw2 : ({ rw with balance := rw.balance + amount, updated_at := t } : Wallet) ∈
      (updateBalance (updateBalance st sw.id (fun b => b - amount) t)
        rw.id (fun b => b + amount) t).wallets :=
    mem_mapWalletById_self hrw1 rw.id _ rfl
  exact ⟨balanceOf_eq_of_mem hnd2 hsw2, balanceOf_eq_of_mem hnd2 hrw2⟩

theorem send_money_ok_eq (st : DB) (c : Nat) (e : String) (amount : ℚ) (t : Nat)
    {recipient : User} {sw rw : Wallet}
    (heq : findUserByEmail st e = some recipient)
    (hsw : (walletsOf st c).head? = some sw)
    (hrw : (walletsOf st recipient.id).head? = some rw)
    (hpos : ¬amount ≤ 0) (hlt : ¬sw.balance < amount) :
    send_money st c e (.num amount) t =
      (Resp.ok, updateBalance (updateBalance st sw.id (fun b => b - amount) t)
        rw.id (fun b => b + amount) t) := by
  simp [send_money, heq, hsw, hrw, hpos, hlt]

theorem send_money_ok_cond (st : DB) (c : Nat) (e : String) (amount : ℚ) (t : Nat)
    {recipient : User} {sw rw : Wallet}
    (heq : findUserByEmail st e = some recipient)
    (hsw : (walletsOf st c).head? = some sw)
    (hrw : (walletsOf st recipient.id).head? = some rw)
    (hok : (send_money st c e (.num amount) t).1 = Resp.ok) :
    ¬amount ≤ 0 ∧ ¬sw.balance < amount := by
  by_cases hpos : amount ≤ 0
  · simp [send_money, hpos] at hok
  · by_cases hlt : sw.balance < amount
    · simp [send_money, heq, hsw, hrw, hpos, hlt] at hok
    · exact ⟨hpos, hlt⟩

/-- Every run of send_money either leaves the state untouched or performs
exactly the debit-credit pair of balance updates. -/
theorem send_money_state_cases (st : DB) (c : Nat) (e : String) (a : JsonAmount)
    (t : Nat) :
    (send_money st c e a t).2 = st ∨
    ∃ swid rwid : Nat, ∃ amount : ℚ, (send_money st c e a t).2 =
      updateBalance (updateBalance st swid (fun b => b - amount) t)
        rwid (fun b => b + amount) t := by
  cases a with
  | nonNumeric => exact Or.inl rfl
  | num amount =>
    by_cases hpos : amount ≤ 0
    · exact Or.inl (by simp [send_money, hpos])
    · cases heq : findUserByEmail st e with
      | none => exact Or.inl (by simp [send_money, hpos, heq])
      | some recipient =>
        cases hsw : (walletsOf st c).head? with
        | none => exact Or.inl (by simp [send_money, hpos, heq, hsw])
        | some sw =>
          cases hrw : (walletsOf st recipient.id).head? with
          | none => exact Or.inl (by simp [send_money, hpos, heq, hsw, hrw])
          | some rw =>
            by_cases hlt : sw.balance < amount
            · exact Or.inl (by simp [send_money, hpos, heq, hsw, hrw, hlt])
            · exact Or.inr ⟨sw.id, rw.id, amount,
                by simp [send_money, hpos, heq, hsw, hrw, hlt]⟩

/-- All wallet columns except the balance and updated_at: id, owner, currency,
is_active, created_at and last_transaction_at.  updated_at is excluded because
the column declares onupdate=datetime.utcnow (src/models.py line 56), so the
commit of any row mutation bumps it alongside the mutated column. -/
def projMeta (w : Wallet) : Nat × Nat × String × Bool × Nat × Option Nat :=
  (w.id, w.user_id, w.currency, w.is_active, w.created_at, w.last_transaction_at)

/-! ## Concrete states for witnesses and counterexamples -/

/-- The spec §8 scenario state: user 1 holds wallet 1 (USD, balance 500),
user 2 holds wallet 2 (USD, balance 0); both wallets created and last updated
at time 0. -/
def stScenario : DB :=
  { users := [⟨1, "a@example.com"⟩, ⟨2, "b@example.com"⟩],
    wallets := [⟨1, 1, 500, "USD", true, 0, 0, none⟩,
                ⟨2, 2, 0, "USD", true, 0, 0, none⟩],
    transactions := [], logs := [], nextWalletId := 3 }

/-- Cross-currency state: wallet 1 is USD with balance 500, wallet 2 is EUR
with balance 0. -/
def stCross : DB :=
  { users := [⟨1, "a@example.com"⟩, ⟨2, "b@example.com"⟩],
    wallets := [⟨1, 1, 500, "USD", true, 0, 0, none⟩,
                ⟨2, 2, 0, "EUR", true, 0, 0, none⟩],
    transactions := [], logs := [], nextWalletId := 3 }

/-- Low-balance state: wallet 1 holds 50 USD, wallet 2 holds 0 USD. -/
def stLow : DB :=
  { users := [⟨1, "a@example.com"⟩, ⟨2, "b@example.com"⟩],
    wallets := [⟨1, 1, 50, "USD", true, 0, 0, none⟩,
                ⟨2, 2, 0, "USD", true, 0, 0, none⟩],
    transactions := [], logs := [], nextWalletId := 3 }

/-- A user whose only wallet is an inactive USD wallet. -/
def stInactive : DB :=
  { users := [⟨1, "a@example.com"⟩],
    wallets := [⟨1, 1, 100, "USD", false, 0, 0, none⟩],
    transactions := [], logs := [], nextWalletId := 2 }

/-! ## Claim theorems -/

/-- C1 (counterexample): at the §8 scenario state the transfer of 150 from
wallet 1 to wallet 2, committed at time 9, succeeds, yet the committed state
holds no Transaction row at all — so no row with status COMPLETED and a fresh
reference_code — and the last_transaction_at of neither wallet was stamped.
The only non-balance change is the ORM bump of the two mutated rows'
onupdate-maintained updated_at (from 0 to 9). -/
theorem transfer_inserts_no_transaction_cex :
    (send_money stScenario 1 "b@example.com" (.num 150) 9).1 = Resp.ok ∧
    (send_money stScenario 1 "b@example.com" (.num 150) 9).2.transactions = [] ∧
    (send_money stScenario 1 "b@example.com" (.num 150) 9).2.wallets.map
      Wallet.last_transaction_at = [none, none] ∧
    (send_money stScenario 1 "b@example.com" (.num 150) 9).2.wallets.map
      Wallet.updated_at = [9, 9] := by decide

/-- C1 (amended): a transfer commits only balance changes (plus the bump of
the mutated rows' onupdate-maintained updated_at): for every request, the
state send_money leaves behind has exactly the transactions of the state
before it, and every wallet column other than the balance and updated_at —
id, owner, currency, is_active, created_at and last_transaction_at — is
unchanged.  In particular no Transaction row with a reference_code, status
COMPLETED or completed_at is ever inserted, and last_transaction_at is never
stamped. -/
theorem transfer_commits_only_balances (st : DB) (c : Nat) (e : String)
    (a : JsonAmount) (t : Nat) :
    (send_money st c e a t).2.transactions = st.transactions ∧
    (send_money st c e a t).2.wallets.map projMeta = st.wallets.map projMeta := by
  rcases send_money_state_cases st c e a t with h | ⟨swid, rwid, amount, h⟩
  · rw [h]; exact ⟨rfl, rfl⟩
  · rw [h]
    refine ⟨rfl, ?_⟩
    calc (updateBalance (updateBalance st swid (fun b => b - amount) t)
            rwid (fun b => b + amount) t).wallets.map projMeta
        = (updateBalance st swid (fun b => b - amount) t).wallets.map projMeta :=
          mapWalletById_map_eq _ _ _ projMeta (fun _ => rfl)
      _ = st.wallets.map projMeta :=
          mapWalletById_map_eq _ _ _ projMeta (fun _ => rfl)

/-- C2: for a completed transfer between two distinct wallets, the sender
balance drops by exactly the amount, the receiver balance rises by exactly
the amount, and their sum is conserved (no fee is charged). -/
theorem transfer_conservation (st : DB) (c : Nat) (e : String) (amount : ℚ)
    (t : Nat) (hnd : UniqueIds st) (recipient : User) (sw rw : Wallet)
    (heq : findUserByEmail st e = some recipient)
    (hsw : (walletsOf st c).head? = some sw)
    (hrw : (walletsOf st recipient.id).head? = some rw)
    (hne : sw.id ≠ rw.id)
    (hok : (send_money st c e (.num amount) t).1 = Resp.ok) :
    balanceOf st sw.id = some sw.balance ∧
    balanceOf st rw.id = some rw.balance ∧
    balanceOf (send_money st c e (.num amount) t).2 sw.id = some (sw.balance - amount) ∧
    balanceOf (send_money st c e (.num amount) t).2 rw.id = some (rw.balance + amount) ∧
    (sw.balance - amount) + (rw.balance + amount) = sw.balance + rw.balance := by
  obtain ⟨hpos, hlt⟩ := send_money_ok_cond st c e amount t heq hsw hrw hok
  have hmm := send_money_ok_eq st c e amount t heq hsw hrw hpos hlt
  have hswm : sw ∈ st.wallets := mem_wallets_of_walletsOf_head hsw
  have hrwm : rw ∈ st.wallets := mem_wallets_of_walletsOf_head hrw
  have hb := balances_after_transfer hnd hswm hrwm hne amount t
  refine ⟨balanceOf_eq_of_mem hnd hswm, balanceOf_eq_of_mem hnd hrwm, ?_, ?_, by ring⟩
  · rw [hmm]; exact hb.1
  · rw [hmm]; exact hb.2

/-- C2 witness: the conservation theorem applied to the §8 scenario. -/
theorem transfer_conservation_witness :
    balanceOf stScenario 1 = some 500 ∧
    balanceOf stScenario 2 = some 0 ∧
    balanceOf (send_money stScenario 1 "b@example.com" (.num 150) 9).2 1 =
      some (500 - 150) ∧
    balanceOf (send_money stScenario 1 "b@example.com" (.num 150) 9).2 2 =
      some (0 + 150) ∧
    (500 - 150 : ℚ) + (0 + 150) = 500 + 0 :=
  transfer_conservation stScenario 1 "b@example.com" 150 9 (by decide)
    ⟨2, "b@example.com"⟩ ⟨1, 1, 500, "USD", true, 0, 0, none⟩
    ⟨2, 2, 0, "USD", true, 0, 0, none⟩
    (by decide) (by decide) (by decide) (by decide) (by decide)

/-- C3: starting from any state whose wallets all have non-negative balances
and well-formed primary keys, after every sequence of wallet-creation,
add-funds and send-money operations every wallet balance is still
non-negative: no operation drives a balance negative. -/
theorem balances_nonneg_after_ops (st : DB) (h : Inv st) (ops : List ApiOp) :
    ∀ w ∈ (applyOps st ops).wallets, 0 ≤ w.balance :=
  (inv_applyOps st ops h).1

/-- C3 witness: non-negativity after a concrete operation sequence that
creates a wallet, credits two wallets and performs a transfer. -/
theorem balances_nonneg_after_ops_witness :
    Inv stScenario ∧
    ∀ w ∈ (applyOps stScenario
      [.createWallet 1 (some "EUR") 2, .addFunds 2 (.num 7) 4,
       .sendMoney 1 "b@example.com" (.num 500) 6]).wallets, 0 ≤ w.balance :=
  ⟨by decide, balances_nonneg_after_ops stScenario (by decide) _⟩

/-- C4: a transfer whose resolvable sender wallet holds strictly less than the
requested positive amount is rejected with the insufficient-balance error and
the state is returned unchanged: both balances keep their values and no
Transaction row is created.  The check is strict, so there is no overdraft. -/
theorem insufficient_funds_rejected (st : DB) (c : Nat) (e : String) (amount : ℚ)
    (t : Nat) (recipient : User) (sw rw : Wallet)
    (heq : findUserByEmail st e = some recipient)
    (hsw : (walletsOf st c).head? = some sw)
    (hrw : (walletsOf st recipient.id).head? = some rw)
    (hpos : 0 < amount) (hlt : sw.balance < amount) :
    send_money st c e (.num amount) t = (Resp.badRequest "Insufficient balance", st) := by
  simp [send_money, heq, hsw, hrw, not_le.mpr hpos, hlt]

/-- C4 witness: the §8 scenario of a 100 transfer from a 50 balance. -/
theorem insufficient_funds_rejected_witness :
    (50 : ℚ) < 100 ∧
    send_money stLow 1 "b@example.com" (.num 100) 9 =
      (Resp.badRequest "Insufficient balance", stLow) :=
  ⟨by norm_num,
    insufficient_funds_rejected stLow 1 "b@example.com" 100 9 ⟨2, "b@example.com"⟩
      ⟨1, 1, 50, "USD", true, 0, 0, none⟩ ⟨2, 2, 0, "USD", true, 0, 0, none⟩
      (by decide) (by decide) (by decide) (by norm_num) (by norm_num)⟩

/-- C5 (counterexample): a transfer of 150 from a USD wallet to a EUR wallet
does not fail with a currency-mismatch error — it succeeds and mutates both
balances, moving the raw amount across currencies with no conversion. -/
theorem currency_mismatch_cex :
    stCross.wallets.map Wallet.currency = ["USD", "EUR"] ∧
    (send_money stCross 1 "b@example.com" (.num 150) 9).1 = Resp.ok ∧
    balanceOf (send_money stCross 1 "b@example.com" (.num 150) 9).2 1 = some 350 ∧
    balanceOf (send_money stCross 1 "b@example.com" (.num 150) 9).2 2 = some 150 := by
  refine ⟨by decide, by decide, ?_, ?_⟩
  · have h : balanceOf (send_money stCross 1 "b@example.com" (.num 150) 9).2 1 =
        some (500 - 150) := rfl
    rw [h]; norm_num
  · have h : balanceOf (send_money stCross 1 "b@example.com" (.num 150) 9).2 2 =
        some (0 + 150) := rfl
    rw [h]; norm_num

/-- C5 (amended): send_money never compares wallet currencies.  Whenever the
recipient resolves, both first wallets exist, the amount is positive and
covered by the sender balance, the transfer succeeds even though the two
wallets carry different currencies, debiting the sender and crediting the
receiver by the raw amount. -/
theorem currency_mismatch_not_rejected (st : DB) (c : Nat) (e : String)
    (amount : ℚ) (t : Nat) (hnd : UniqueIds st) (recipient : User) (sw rw : Wallet)
    (heq : findUserByEmail st e = some recipient)
    (hsw : (walletsOf st c).head? = some sw)
    (hrw : (walletsOf st recipient.id).head? = some rw)
    (hcur : sw.currency ≠ rw.currency)
    (hpos : 0 < amount) (hle : amount ≤ sw.balance) :
    (send_money st c e (.num amount) t).1 = Resp.ok ∧
    balanceOf (send_money st c e (.num amount) t).2 sw.id = some (sw.balance - amount) ∧
    balanceOf (send_money st c e (.num amount) t).2 rw.id = some (rw.balance + amount) := by
  have hswm : sw ∈ st.wallets := mem_wallets_of_walletsOf_head hsw
  have hrwm : rw ∈ st.wallets := mem_wallets_of_walletsOf_head hrw
  have hne : sw.id ≠ rw.id := fun hh =>
    hcur (congrArg Wallet.currency (id_inj hnd hswm hrwm hh))
  have hmm := send_money_ok_eq st c e amount t heq hsw hrw (not_le.mpr hpos) (not_lt.mpr hle)
  have hb := balances_after_transfer hnd hswm hrwm hne amount t
  exact ⟨by rw [hmm], by rw [hmm]; exact hb.1, by rw [hmm]; exact hb.2⟩

/-- C5 witness: the amended theorem applied to the cross-currency state. -/
theorem currency_mismatch_not_rejected_witness :
    "USD" ≠ "EUR" ∧
    (send_money stCross 1 "b@example.com" (.num 150) 9).1 = Resp.ok ∧
    balanceOf (send_money stCross 1 "b@example.com" (.num 150) 9).2 1 =
      some (500 - 150) ∧
    balanceOf (send_money stCross 1 "b@example.com" (.num 150) 9).2 2 =
      some (0 + 150) :=
  ⟨by decide,
    currency_mismatch_not_rejected stCross 1 "b@example.com" 150 9 (by decide)
      ⟨2, "b@example.com"⟩ ⟨1, 1, 500, "USD", true, 0, 0, none⟩
      ⟨2, 2, 0, "EUR", true, 0, 0, none⟩
      (by decide) (by decide) (by decide) (by decide) (by norm_num) (by norm_num)⟩

/-- C6 (counterexample): at the §8 scenario state the transfer succeeds but
the state after it holds no Log row at all, so no CREATE_TRANSACTION audit
record exists. -/
theorem no_audit_log_cex :
    (send_money stScenario 1 "b@example.com" (.num 150) 9).1 = Resp.ok ∧
    (send_money stScenario 1 "b@example.com" (.num 150) 9).2.logs = [] := by
  decide

/-- C6 (amended): send_money never writes a Log row: after every transfer
request, successful or failed, the logs table is exactly what it was before.
The create_log helper exists and is called by the wallet and beneficiary
creation handlers, but the transfer handler never invokes it. -/
theorem transfer_writes_no_log (st : DB) (c : Nat) (e : String) (a : JsonAmount)
    (t : Nat) : (send_money st c e a t).2.logs = st.logs := by
  rcases send_money_state_cases st c e a t with h | ⟨swid, rwid, amount, h⟩
  · rw [h]
  · rw [h]
    rfl

/-- The unique constraints declared on the wallets table
(src/models.py, Wallet.__table_args__): column list and constraint name. -/
def walletUniqueConstraints : List (List String × String) :=
  [(["user_id", "currency"], "unique_user_wallet")]

/-- C8: when the caller already holds a wallet in the requested currency,
create_wallet rejects the request with the duplicate-wallet error and the
state — hence the set of wallet rows — is unchanged; and the (user_id,
currency) pair is also declared as the storage-layer constraint
unique_user_wallet, under which any insert of a second wallet with that pair
is refused by the store. -/
theorem duplicate_wallet_rejected (st : DB) (c : Nat) (currency : String)
    (t : Nat) (w : Wallet) (hw : w ∈ st.wallets) (hu : w.user_id = c)
    (hc : w.currency = currency) :
    create_wallet st c (some currency) t =
      (Resp.badRequest ("Wallet for " ++ currency ++ " already exists"), st) ∧
    (["user_id", "currency"], "unique_user_wallet") ∈ walletUniqueConstraints ∧
    ∀ w2 : Wallet, w2.user_id = c → w2.currency = currency →
      walletInsertOk st w2 = false := by
  have hdup : st.wallets.any
      (fun w2 => w2.user_id = c && w2.currency = (some currency).getD "USD") = true := by
    simp only [List.any_eq_true, Option.getD_some, Bool.and_eq_true, decide_eq_true_eq]
    exact ⟨w, hw, hu, hc⟩
  have hif : create_wallet st c (some currency) t =
      (Resp.badRequest ("Wallet for " ++ currency ++ " already exists"), st) := by
    unfold create_wallet
    rw [if_pos hdup]
    simp
  refine ⟨hif, by simp [walletUniqueConstraints], ?_⟩
  intro w2 hu2 hc2
  simp only [walletInsertOk, Bool.not_eq_false', List.any_eq_true, Bool.and_eq_true,
    decide_eq_true_eq]
  exact ⟨w, hw, by rw [hu, hu2], by rw [hc, hc2]⟩

/-- C8 witness: user 1 of the §8 scenario state already holds a USD wallet. -/
theorem duplicate_wallet_rejected_witness :
    (⟨1, 1, 500, "USD", true, 0, 0, none⟩ : Wallet) ∈ stScenario.wallets ∧
    create_wallet stScenario 1 (some "USD") 9 =
      (Resp.badRequest ("Wallet for " ++ "USD" ++ " already exists"), stScenario) ∧
    (["user_id", "currency"], "unique_user_wallet") ∈ walletUniqueConstraints ∧
    ∀ w2 : Wallet, w2.user_id = 1 → w2.currency = "USD" →
      walletInsertOk stScenario w2 = false :=
  ⟨by decide,
    duplicate_wallet_rejected stScenario 1 "USD" 9 ⟨1, 1, 500, "USD", true, 0, 0, none⟩
      (by decide) (by decide) (by decide)⟩

/-- C9 (counterexample): a non-numeric add-funds amount does not produce the
handler InvalidAmount response (the 400 with message Invalid amount value at
src/app.py line 251): Decimal raises decimal.InvalidOperation or TypeError,
neither of which is a ValueError, so the exception escapes the handler and
the framework answers with a generic 500. -/
theorem invalid_amount_cex :
    (add_funds stScenario 1 JsonAmount.nonNumeric 0).1 = Resp.unhandled ∧
    Resp.unhandled ≠ Resp.badRequest "Invalid amount value" := by
  decide

/-- C9 (amended): an amount less than or equal to zero makes both add_funds
and send_money fail with the 400 amount-must-be-positive response, detected
before any commit and with the state — hence every balance — unchanged.  A
non-numeric amount also leaves the state unchanged and never reaches a
commit, but it surfaces as an unhandled conversion exception (a generic 500),
not as the InvalidAmount response. -/
theorem invalid_amount_handling (st : DB) (c reqUserId t : Nat) (e : String)
    (q : ℚ) (hq : q ≤ 0) :
    add_funds st reqUserId (.num q) t =
      (Resp.badRequest "Amount must be greater than 0", st) ∧
    send_money st c e (.num q) t =
      (Resp.badRequest "Amount must be greater than 0", st) ∧
    add_funds st reqUserId .nonNumeric t = (Resp.unhandled, st) ∧
    send_money st c e .nonNumeric t = (Resp.unhandled, st) :=
  ⟨by simp [add_funds, hq], by simp [send_money, hq], rfl, rfl⟩

/-- C9 witness: the amended theorem applied at amount 0. -/
theorem invalid_amount_handling_witness :
    (0 : ℚ) ≤ 0 ∧
    add_funds stScenario 1 (.num 0) 0 =
      (Resp.badRequest "Amount must be greater than 0", stScenario) ∧
    send_money stScenario 1 "b@example.com" (.num 0) 0 =
      (Resp.badRequest "Amount must be greater than 0", stScenario) ∧
    add_funds stScenario 1 .nonNumeric 0 = (Resp.unhandled, stScenario) ∧
    send_money stScenario 1 "b@example.com" .nonNumeric 0 = (Resp.unhandled, stScenario) :=
  ⟨le_refl 0, invalid_amount_handling stScenario 1 1 0 "b@example.com" 0 (le_refl 0)⟩

theorem map_fresh_append (l : List Wallet) (nid : Nat)
    (hfresh : ∀ w ∈ l, w.id ≠ nid) (g : Wallet → Wallet) (w0 : Wallet)
    (hw0 : w0.id = nid) :
    (l ++ [w0]).map (fun w => if w.id = nid then g w else w) = l ++ [g w0] := by
  rw [List.map_append]
  congr 1
  · conv_rhs => rw [← List.map_id l]
    refine List.map_congr_left (fun w hw => ?_)
    simp [hfresh w hw]
  · simp [hw0]

/-- C10 (counterexample): a user whose only wallet is an inactive USD wallet
has no active wallet, yet a positive add-funds request for that user does not
create and credit a new USD wallet: the insert of the fresh wallet violates
the unique_user_wallet constraint, the IntegrityError lands in the
except-branch, and the handler answers 500 with the state unchanged. -/
theorem add_funds_inactive_wallet_cex :
    findActiveWallet stInactive 1 = none ∧
    add_funds stInactive 1 (.num 5) 0 =
      (Resp.handledError "Error processing request", stInactive) := by
  decide

/-- C10 (amended): a positive add-funds request credits the active wallet of
the user_id taken from the request body — the handler body never consults the
authenticated caller, which is why the embedded add_funds takes no caller
argument.  When that user has no active wallet and the fresh USD wallet
passes the unique_user_wallet constraint, a new active USD wallet is created
with balance 0 and then credited, ending with balance equal to the amount;
when the fresh wallet violates the constraint (the user already holds a USD
wallet, necessarily inactive), the request fails with a handled 500 and the
state is unchanged. -/
theorem add_funds_credits_request_body_user (st : DB) (r : Nat) (amount : ℚ)
    (t : Nat) (hnd : UniqueIds st) (hbelow : IdsBelowNext st)
    (hpos : 0 < amount) :
    (∀ w, findActiveWallet st r = some w →
      (add_funds st r (.num amount) t).1 = Resp.ok ∧
      balanceOf (add_funds st r (.num amount) t).2 w.id = some (w.balance + amount)) ∧
    (findActiveWallet st r = none →
      walletInsertOk st (freshWallet st r t) = true →
      (add_funds st r (.num amount) t).1 = Resp.ok ∧
      (add_funds st r (.num amount) t).2.wallets = st.wallets ++
        [{ freshWallet st r t with balance := amount, last_transaction_at := some t }]) ∧
    (findActiveWallet st r = none →
      walletInsertOk st (freshWallet st r t) = false →
      add_funds st r (.num amount) t =
        (Resp.handledError "Error processing request", st)) := by
  have hple : ¬amount ≤ 0 := not_le.mpr hpos
  refine ⟨?_, ?_, ?_⟩
  · intro w hfw
    have hwm : w ∈ st.wallets := mem_wallets_of_findActiveWallet hfw
    have hnd1 : UniqueIds (updateBalance st w.id (fun b => b + amount) t) :=
      uniqueIds_mapWalletById _ _ (fun _ => rfl) hnd
    have hnd2 : UniqueIds
        (stampWallet (updateBalance st w.id (fun b => b + amount) t) w.id t) :=
      uniqueIds_mapWalletById _ _ (fun _ => rfl) hnd1
    have h1 : ({ w with balance := w.balance + amount, updated_at := t } : Wallet) ∈
        (updateBalance st w.id (fun b => b + amount) t).wallets :=
      mem_mapWalletById_self hwm w.id _ rfl
    have h2 : ({ w with balance := w.balance + amount, updated_at := t,
                        last_transaction_at := some t } : Wallet) ∈
        (stampWallet (updateBalance st w.id (fun b => b + amount) t) w.id t).wallets :=
      mem_mapWalletById_self h1 w.id _ rfl
    have hb := balanceOf_eq_of_mem hnd2 h2
    constructor
    · simp [add_funds, hple, hfw]
    · simpa [add_funds, hple, hfw] using hb
  · intro hfw hok
    have hfresh : ∀ w ∈ st.wallets, w.id ≠ st.nextWalletId :=
      fun w hw => Nat.ne_of_lt (hbelow w hw)
    constructor
    · simp [add_funds, hple, hfw, hok]
    · have hm1 := map_fresh_append st.wallets st.nextWalletId hfresh
        (fun w => { w with balance := w.balance + amount, updated_at := t })
        (freshWallet st r t) rfl
      have hm2 := map_fresh_append st.wallets st.nextWalletId hfresh
        (fun w => { w with last_transaction_at := some t, updated_at := t })
        { freshWallet st r t with
            balance := (freshWallet st r t).balance + amount, updated_at := t } rfl
      simp only [add_funds, hple, hfw, hok,
        stampWallet, updateBalance, mapWalletById, insertWallet]
      simp only [hm1, hm2]
      simp [freshWallet]
  · intro hfw hok
    simp [add_funds, hple, hfw, hok]

/-- C10 witness: the amended theorem applied to user 1 of the §8 scenario,
whose active wallet (balance 500) is credited with 25. -/
theorem add_funds_credits_request_body_user_witness :
    (0 : ℚ) < 25 ∧
    (add_funds stScenario 1 (.num 25) 7).1 = Resp.ok ∧
    balanceOf (add_funds stScenario 1 (.num 25) 7).2 1 = some (500 + 25) :=
  ⟨by decide,
    (add_funds_credits_request_body_user stScenario 1 25 7 (by decide) (by decide)
        (by decide)).1 ⟨1, 1, 500, "USD", true, 0, 0, none⟩ (by decide)⟩

end MTA
